import Mathlib

/-!
Shallow embedding of the `mongoose-cached-lgpd` plugin.

The JavaScript plugin (files `src/unnamed/part_000` and `src/src/index.js`)
adds `list` / `get` / `numberOf` / `patch` helpers plus a cache-invalidation
hook to a mongoose schema.  The definitions below translate, function by
function, the pure decision logic of that code:

* the dotted-path prefix walk (external package `dot-path-walk`),
* the extras normalisation `[...commonFields, ..._.without(extras, ...secretFields)]`,
* the selection / populate construction loop of `list` and `get`,
* the limit clamping `_.clamp(_.toSafeInteger(opts.limit), pluginOpts.limit)`,
* the text-search sort injection `_.assign({}, opts.sort, {score: ...})`,
* the cache-call gating `ttl && opts.lean && find.cache(ttl, PREFIX)` and the
  unconditional `.cache(...)` of `numberOf`,
* the cache-clear pattern construction of `schema.methods.clearCache` and the
  four `schema.post` hooks,
* the plugin-option validator (`xana-validator-sync` rules) and registration,
* the two variants of the static `patch` (with and without the `!doc` guard).

JavaScript strings are Lean `String`s, numbers are `Int` (all the numbers the
plugin manipulates are integers), `undefined` is encoded with `Option`, and
exceptions with `Except`.
-/

/-- Split a list of characters at every dot, keeping empty segments, exactly
as `"a.b".split('.')` does in JavaScript. -/
def splitDotChars : List Char → List (List Char)
  | [] => [[]]
  | c :: rest =>
    let r := splitDotChars rest
    if c = '.' then [] :: r
    else
      match r with
      | [] => [[c]]
      | h :: t => (c :: h) :: t

/-- Dotted-path segments of a string: `"a.b.c"` gives `["a", "b", "c"]`. -/
def splitDot (s : String) : List String :=
  (splitDotChars s.data).map String.mk

/-- Accumulator loop producing the growing dotted prefixes. -/
def walkAux (acc : String) : List String → List String
  | [] => [acc]
  | t :: ts => acc :: walkAux (acc ++ "." ++ t) ts

/-- The `dot-path-walk` generator: all dotted prefixes of a path from the
first segment to the full path, `"a.b.c"` gives `["a", "a.b", "a.b.c"]`. -/
def walkPrefixes (s : String) : List String :=
  match splitDot s with
  | [] => []
  | h :: t => walkAux h t

/-- JavaScript `s.replace(pat, '')` for a plain (non-empty) string pattern:
remove the first occurrence of `pat`, leave `s` unchanged when absent. -/
def replaceFirstChars (pat : List Char) : List Char → List Char
  | [] => []
  | c :: rest =>
    if pat.isPrefixOf (c :: rest) then (c :: rest).drop pat.length
    else c :: replaceFirstChars pat rest

/-- String version of `replaceFirstChars`. -/
def replaceFirst (s pat : String) : String :=
  String.mk (replaceFirstChars pat.data s.data)

/-- JavaScript `s.startsWith(pre)`. -/
def jsStartsWith (s pre : String) : Bool :=
  pre.data.isPrefixOf s.data

/-- JavaScript `array.join(sep)`. -/
def joinWith (sep : String) : List String → String
  | [] => ""
  | [x] => x
  | x :: xs => x ++ sep ++ joinWith sep xs

/-- The extras normalisation of `list` and `get` (part_000 lines 91-92,
index.js lines 207-208):
`extras = [...opts.commonFields, ..._.without(extras, ...opts.secretFields)]`.
`_.without` removes the secret fields from the requested extras only; the
common fields are prepended unfiltered. -/
def filterExtras (commonFields secretFields extras : List String) : List String :=
  commonFields ++ extras.filter (fun e => decide (e ∉ secretFields))

/-- The schema-introspection capability consulted by the selection loop:
`pathExists p` is `this.schema.pathType(p) !== 'adhocOrUndefined'` and
`isRef p` is `_.has(schema, 'caster.options.ref') || _.has(schema, 'options.ref')`
for the schema type at `p`. -/
structure SchemaModel where
  pathExists : String → Bool
  isRef : String → Bool

/-- The inner prefix loop of `list` / `get` (part_000 lines 100-111): walk the
prefixes of one extra, stop (without pushing) at the first unknown path, push
every existing prefix, and stop after pushing the first reference boundary. -/
def collectPaths (sch : SchemaModel) : List String → List String
  | [] => []
  | p :: rest =>
    if sch.pathExists p then
      p :: (if sch.isRef p then [] else collectPaths sch rest)
    else []

/-- The child selection passed to `find.populate(path, ...)` (part_000 lines
106-108): every extra starting with `path`, with the first occurrence of
`path ++ "."` removed, joined by spaces. -/
def childSelect (extras : List String) (path : String) : String :=
  joinWith " "
    ((extras.filter (fun e => jsStartsWith e path)).map
      (fun e => replaceFirst e (path ++ ".")))

/-- The populate calls issued while walking one extra's prefixes: at the first
existing reference prefix, `find.populate(path, childSelect)` fires and the
walk stops. -/
def collectPopulates (sch : SchemaModel) (extras : List String) :
    List String → List (String × String)
  | [] => []
  | p :: rest =>
    if sch.pathExists p then
      if sch.isRef p then [(p, childSelect extras p)]
      else collectPopulates sch extras rest
    else []

/-- The `validExtras` accumulator of `list` / `get` over a normalised extras
list: falsy (empty) extras are skipped (`if (!extra) continue`), the rest are
walked prefix by prefix. -/
def validExtras (sch : SchemaModel) (extras : List String) : List String :=
  (extras.filter (fun e => e != "")).flatMap (fun e => collectPaths sch (walkPrefixes e))

/-- All populate calls issued by one `list` / `get` over a normalised extras
list. -/
def populateCalls (sch : SchemaModel) (extras : List String) : List (String × String) :=
  (extras.filter (fun e => e != "")).flatMap
    (fun e => collectPopulates sch extras (walkPrefixes e))

/-- The selection a `list` call builds from the requested extras `E` under a
policy with the given common and secret fields (before `.join(' ')`). -/
def listSelection (sch : SchemaModel) (cf sf E : List String) : List String :=
  validExtras sch (filterExtras cf sf E)

/-- The populate calls a `list` call issues from the requested extras `E`. -/
def listPopulates (sch : SchemaModel) (cf sf E : List String) : List (String × String) :=
  populateCalls sch (filterExtras cf sf E)

/-- `Number.MAX_SAFE_INTEGER`. -/
def maxSafeInteger : Int := 9007199254740991

/-- The limit option a caller may pass: absent (`undefined`), a number, or a
non-numeric value (string, object, ...), which `_.toSafeInteger` turns into 0. -/
inductive LimitArg
  | missing
  | nonNumeric
  | num (n : Int)
deriving DecidableEq

/-- Lodash `_.toSafeInteger`: non-numeric input becomes 0, numeric input is
clamped into the safe-integer range. -/
def toSafeInteger : LimitArg → Int
  | LimitArg.missing => 0
  | LimitArg.nonNumeric => 0
  | LimitArg.num n => max (-maxSafeInteger) (min n maxSafeInteger)

/-- Lodash `_.clamp(n, upper)` with two arguments: only an upper bound is
applied, there is no lower bound. -/
def lodashClamp (n upper : Int) : Int := min n upper

/-- The effective limit of a `list` call (part_000 line 88, index.js line 204):
`opts = Object.assign({}, pluginOpts, opts)` makes a missing caller limit fall
back to the policy limit, then
`opts.limit = _.clamp(_.toSafeInteger(opts.limit), pluginOpts.limit)`.
`policyLimit` is the configured numeric policy limit. -/
def effectiveLimit (policyLimit : Int) (req : LimitArg) : Int :=
  let merged := match req with
    | LimitArg.missing => LimitArg.num policyLimit
    | r => r
  lodashClamp (toSafeInteger merged) policyLimit

/-- Sort directions occurring in the plugin: caller-supplied ascending or
descending keys and the injected `{$meta: 'textScore'}` relevance key. -/
inductive SortVal
  | asc
  | desc
  | textScore
deriving DecidableEq

/-- JavaScript `Object.assign({}, base, overlay)` on small records encoded as
association lists: base keys keep their position, overlay values win on a
shared key, overlay-only keys are appended in overlay order. -/
def jsAssign (base overlay : List (String × SortVal)) : List (String × SortVal) :=
  base.map (fun kv => (kv.1, (overlay.lookup kv.1).getD kv.2)) ++
    overlay.filter (fun kv => (base.lookup kv.1).isNone)

/-- The sort a `list` call ends up passing to `find.sort` (part_000 line 89):
`searchText && (opts.sort = _.assign({}, opts.sort, {score: {$meta: 'textScore'}}))`.
`callerSort = none` encodes an absent `opts.sort`. -/
def computedSort (searchText : Bool) (callerSort : Option (List (String × SortVal))) :
    Option (List (String × SortVal)) :=
  if searchText then
    some (jsAssign (callerSort.getD []) [("score", SortVal.textScore)])
  else callerSort

/-- The keys of a sort record. -/
def sortKeys (s : List (String × SortVal)) : List String := s.map Prod.fst

/-- Cache-key namespaces `COUNT_CACHE_PREFIX`, `LIST_CACHE_PREFIX`,
`GET_CACHE_PREFIX` (part_000 lines 58-60). -/
def countCacheNs (m : String) : String := m ++ ":count:"

/-- See `countCacheNs`. -/
def listCacheNs (m : String) : String := m ++ ":list:"

/-- See `countCacheNs`. -/
def getCacheNs (m : String) : String := m ++ ":get:"

/-- JavaScript truthiness of a possibly-undefined number. -/
def jsTruthyNum : Option Int → Bool
  | none => false
  | some n => n != 0

/-- The cache call a `list` issues (part_000 lines 120-121):
`const ttl = _.isFunction(find.cache) ? opts.cache : 0` followed by
`ttl && opts.lean && find.cache(ttl, LIST_CACHE_PREFIX)`.
`none` means no cache call was made. -/
def listCacheCall (m : String) (hasCacheFn leanMode : Bool) (cacheOpt : Option Int) :
    Option (Int × String) :=
  let ttl := if hasCacheFn then cacheOpt else some 0
  if jsTruthyNum ttl && leanMode then some (ttl.getD 0, listCacheNs m) else none

/-- The cache call a `get` issues (part_000 lines 165-166), keyed by id. -/
def getCacheCall (m id : String) (hasCacheFn leanMode : Bool) (cacheOpt : Option Int) :
    Option (Int × String) :=
  let ttl := if hasCacheFn then cacheOpt else some 0
  if jsTruthyNum ttl && leanMode then some (ttl.getD 0, getCacheNs m ++ id ++ ":") else none

/-- The cache call `numberOf` issues (part_000 lines 67-73):
`this.count(query).cache(opts.cache, COUNT_CACHE_PREFIX)` — unconditional, it
consults neither `opts.lean` nor the truthiness of the ttl. -/
def numberOfCacheCall (m : String) (_leanMode : Bool) (cacheOpt : Option Int) :
    Option (Option Int × String) :=
  some (cacheOpt, countCacheNs m)

/-- The patterns `schema.methods.clearCache` passes to the configured
`clearCache` capability (part_000 lines 199-205); the empty list when the
capability is absent (`typeof pluginOpts.clearCache === 'function'` fails). -/
def clearCacheCalls (hasClearCache : Bool) (m id : String) : List String :=
  if hasClearCache then
    [countCacheNs m ++ "*", listCacheNs m ++ "*", getCacheNs m ++ id ++ ":*"]
  else []

/-- `schema.methods.clearCache` run against an explicit capability: absent
capability is a no-op; a present capability is applied to the three patterns
in order with no surrounding try/catch, so a failure short-circuits. -/
def clearCacheRun {ε : Type} (cap : Option (String → Except ε Unit)) (m id : String) :
    Except ε Unit :=
  match cap with
  | none => Except.ok ()
  | some f => do
    f (countCacheNs m ++ "*")
    f (listCacheNs m ++ "*")
    f (getCacheNs m ++ id ++ ":*")

/-- The four mutating operations carrying a post hook (part_000 lines 236-250). -/
inductive MutatingOp
  | save
  | remove
  | findOneAndRemove
  | findOneAndUpdate

/-- Each of the four `schema.post` hooks calls `doc.clearCache()` on the
mutated document. -/
def postHookCalls (op : MutatingOp) (hasClearCache : Bool) (m id : String) : List String :=
  match op with
  | MutatingOp.save => clearCacheCalls hasClearCache m id
  | MutatingOp.remove => clearCacheCalls hasClearCache m id
  | MutatingOp.findOneAndRemove => clearCacheCalls hasClearCache m id
  | MutatingOp.findOneAndUpdate => clearCacheCalls hasClearCache m id

/-- Runtime type tags of the JavaScript values the option validator inspects. -/
inductive JsType
  | array
  | number
  | string
  | boolean
  | other
deriving DecidableEq

/-- The plugin options as seen by the validator: for each validated option its
runtime type, or `none` when the option is `undefined`. -/
structure RawPluginOpts where
  modelName : Option JsType
  commonFields : Option JsType
  secretFields : Option JsType
  readOnlyFields : Option JsType
  cache : Option JsType
  limit : Option JsType
  leanOpt : Option JsType
deriving DecidableEq

/-- `_.defaults({}, pluginOpts, DEFAULT_PLUGIN_OPTS)` (part_000 lines 11-16,
55): fills `commonFields`, `secretFields`, `readOnlyFields` with arrays and
`lean` with a boolean when they are `undefined`; `modelName`, `cache` and
`limit` have no defaults. -/
def applyDefaults (o : RawPluginOpts) : RawPluginOpts :=
  { o with
    commonFields := o.commonFields <|> some JsType.array
    secretFields := o.secretFields <|> some JsType.array
    readOnlyFields := o.readOnlyFields <|> some JsType.array
    leanOpt := o.leanOpt <|> some JsType.boolean }

/-- An `['field', 'is', type, msg]` rule of `xana-validator-sync`: passes on an
absent value, fails with `msg` on a value of the wrong runtime type. -/
def checkIs (v : Option JsType) (t : JsType) (msg : String) : Option String :=
  match v with
  | none => none
  | some u => if u = t then none else some msg

/-- A `['field', 'required', true, msg]` rule: fails with `msg` when the value
is absent. -/
def checkRequired (v : Option JsType) (msg : String) : Option String :=
  match v with
  | none => some msg
  | some _ => none

/-- First failure of a rule list. -/
def firstErr : List (Option String) → Option String
  | [] => none
  | none :: rest => firstErr rest
  | some m :: _ => some m

/-- The plugin-option validator (part_000 lines 22-30), rules in source
order. -/
def validatePluginOpts (o : RawPluginOpts) : Option String :=
  firstErr
    [checkIs o.commonFields JsType.array "Expect commonFields to be an array",
     checkIs o.secretFields JsType.array "Expect secretFields to be an array",
     checkIs o.cache JsType.number "Expect cache to be an number",
     checkIs o.limit JsType.number "Expect limit to be an number",
     checkIs o.leanOpt JsType.boolean "Expect lean to be a boolean",
     checkRequired o.modelName "Expect modelName to be existed",
     checkIs o.modelName JsType.string "Expect modelName to be an string"]

/-- Plugin registration (part_000 lines 36-39, 54-56): apply the defaults,
then `validatePluginOpts` throws a `TypeError` (here: `Except.error` with the
rule's message) on the first failing rule, before any helper is installed. -/
def pluginRegister (o : RawPluginOpts) : Except String Unit :=
  match validatePluginOpts (applyDefaults o) with
  | some msg => Except.error msg
  | none => Except.ok ()

/-- Outcome of a static `patch` call: either the callback `done` is invoked
(with an error and/or a document), or the call crashes synchronously with a
null-dereference `TypeError` before any callback runs. -/
inductive PatchOutcome (ε δ : Type)
  | callback (err : Option ε) (doc : Option δ)
  | nullDeref
deriving DecidableEq

/-- `schema.methods.patch`: merge and save, reporting through the callback
(part_000 lines 212-215). -/
def docPatchRun {ε δ : Type} (applyPatch : δ → Except ε δ) (d : δ) : PatchOutcome ε δ :=
  match applyPatch d with
  | Except.ok d2 => PatchOutcome.callback none (some d2)
  | Except.error e => PatchOutcome.callback (some e) none

/-- `schema.statics.patch` of part_000 (lines 177-182): on a successful lookup
that finds no document, `doc` is `null` and `doc.patch(patch, done)` throws a
`TypeError` — there is no `!doc` guard. -/
def patchStatic {ε δ : Type} (lookup : Except ε (Option δ))
    (applyPatch : δ → Except ε δ) : PatchOutcome ε δ :=
  match lookup with
  | Except.error e => PatchOutcome.callback (some e) none
  | Except.ok none => PatchOutcome.nullDeref
  | Except.ok (some d) => docPatchRun applyPatch d

/-- `schema.statics.patch` of src/src/index.js (lines 317-322): the guarded
variant, `if (err || !doc) return done(err, null)`. -/
def patchStaticGuarded {ε δ : Type} (lookup : Except ε (Option δ))
    (applyPatch : δ → Except ε δ) : PatchOutcome ε δ :=
  match lookup with
  | Except.error e => PatchOutcome.callback (some e) none
  | Except.ok none => PatchOutcome.callback none none
  | Except.ok (some d) => docPatchRun applyPatch d

/-- A concrete schema with one known scalar path `"x"`. -/
def schemaWithX : SchemaModel :=
  { pathExists := fun p => p == "x", isRef := fun _ => false }

/-- A concrete schema with a reference field `"author"` whose referenced
document has a `"name"` path. -/
def authorSchema : SchemaModel :=
  { pathExists := fun p => p == "author" || p == "author.name",
    isRef := fun p => p == "author" }

/-- Every element of `collectPaths` is a path the schema knows. -/
theorem pathExists_of_mem_collectPaths (sch : SchemaModel) :
    ∀ (l : List String) (f : String), f ∈ collectPaths sch l → sch.pathExists f = true := by
  intro l
  induction l with
  | nil => intro f hf; simp [collectPaths] at hf
  | cons p rest ih =>
    intro f hf
    simp only [collectPaths] at hf
    by_cases hp : sch.pathExists p
    · rw [if_pos hp] at hf
      rcases List.mem_cons.mp hf with h | h
      · rw [h]; exact hp
      · by_cases hr : sch.isRef p
        · rw [if_pos hr] at h; simp at h
        · rw [if_neg hr] at h; exact ih f h
    · rw [if_neg hp] at hf; simp at hf

/-- C1, counterexample. The claim says the selection never contains a secret
field even when it occurs in `commonFields`; but with policy
`commonFields = ["x"]`, `secretFields = ["x"]` and no requested extras, the
secret field `"x"` is selected, because `_.without` strips secret fields from
the requested extras only, never from the prepended common fields. -/
theorem c1_secret_common_field_selected :
    "x" ∈ listSelection schemaWithX ["x"] ["x"] [] ∧ "x" ∈ (["x"] : List String) := by
  decide

/-- C1, amended: the normalised extras list `list` and `get` build —
`commonFields ++ (E without secretFields)` — never contains a secret field
that is not itself listed in `commonFields`; secret exclusion wins over the
explicit request, but not over common-field membership. -/
theorem c1_secret_exclusion_amended (cf sf E : List String) (s : String)
    (h1 : s ∈ sf) (h2 : s ∉ cf) : s ∉ filterExtras cf sf E := by
  intro hmem
  rcases List.mem_append.mp hmem with h | h
  · exact h2 h
  · have h' := List.mem_filter.mp h
    have : s ∉ sf := by simpa using h'.2
    exact this h1

/-- C1, witness for the amended theorem at a concrete input. -/
theorem c1_secret_exclusion_witness :
    "secret" ∉ filterExtras ["name"] ["secret"] ["secret", "price"] :=
  c1_secret_exclusion_amended ["name"] ["secret"] ["secret", "price"] "secret"
    (by decide) (by decide)

/-- C3, counterexample. The claim says a requested limit of 0 coerces to the
policy default; with policy limit 100 a requested limit of 0 yields an
effective limit of 0, not 100 (`_.toSafeInteger(0) = 0` and
`_.clamp(0, 100) = 0` — lodash clamp with two arguments has no lower
bound). -/
theorem c3_zero_limit_not_defaulted :
    effectiveLimit 100 (LimitArg.num 0) = 0 ∧ (0 : Int) ≠ 100 := by
  decide

/-- C3, amended: the applied limit is `min(toSafeInteger(requested), policy)`
and never exceeds the policy maximum; but a requested limit of 0 or a negative
number passes through as `min(requested, policy)` instead of coercing to the
policy default, and a non-numeric request coerces to `min(0, policy)`, not to
the policy default. Only an absent limit falls back to the policy limit. -/
theorem c3_limit_clamp_amended (L n : Int)
    (h1 : -maxSafeInteger ≤ n) (h2 : n ≤ maxSafeInteger) :
    effectiveLimit L (LimitArg.num n) = min n L ∧
    effectiveLimit L LimitArg.nonNumeric = min 0 L ∧
    effectiveLimit L (LimitArg.num n) ≤ L := by
  refine ⟨?_, ?_, ?_⟩ <;>
    simp only [effectiveLimit, toSafeInteger, lodashClamp, maxSafeInteger] at * <;>
    omega

/-- C3, witness for the amended theorem at a concrete input. -/
theorem c3_limit_clamp_witness :
    effectiveLimit 100 (LimitArg.num 50) = min 50 100 ∧
    effectiveLimit 100 LimitArg.nonNumeric = min 0 100 ∧
    effectiveLimit 100 (LimitArg.num 50) ≤ 100 :=
  c3_limit_clamp_amended 100 50 (by decide) (by decide)

/-- C4, counterexample. The claim says that for every operation — `list`,
`get` and `count` — no cache call is issued when `opts.lean` is false; but
`numberOf` (the count operation) calls
`this.count(query).cache(opts.cache, COUNT_CACHE_PREFIX)` unconditionally, so
with `lean = false` and `cache = 5` a cache call with ttl 5 is still made. -/
theorem c4_numberOf_caches_without_lean :
    numberOfCacheCall "Item" false (some 5) = some (some 5, "Item:count:") ∧
    numberOfCacheCall "Item" false (some 5) ≠ none := by
  decide

/-- C4, amended: for `list` and `get` the claim holds — whenever `opts.lean`
is false no cache call is issued, regardless of the requested ttl and of
whether the queryable supports caching; `numberOf`, however, always issues its
cache call, ignoring `opts.lean` entirely. -/
theorem c4_lean_gates_list_get_cache (m id : String) (hasCacheFn : Bool)
    (cacheOpt : Option Int) :
    listCacheCall m hasCacheFn false cacheOpt = none ∧
    getCacheCall m id hasCacheFn false cacheOpt = none := by
  constructor <;> simp [listCacheCall, getCacheCall]

/-- The id-scoped get pattern differs from the global count wildcard. -/
theorem getWild_ne_countWild (m : String) :
    getCacheNs m ++ "*" ≠ countCacheNs m ++ "*" := by
  intro h
  have h' := congrArg String.length h
  simp only [getCacheNs, countCacheNs] at h'
  rw [String.length_append, String.length_append, String.length_append,
    String.length_append] at h'
  have e1 : (":get:" : String).length = 5 := by decide
  have e2 : (":count:" : String).length = 7 := by decide
  omega

/-- The id-scoped get pattern differs from the global list wildcard. -/
theorem getWild_ne_listWild (m : String) :
    getCacheNs m ++ "*" ≠ listCacheNs m ++ "*" := by
  intro h
  have h' := congrArg String.length h
  simp only [getCacheNs, listCacheNs] at h'
  rw [String.length_append, String.length_append, String.length_append,
    String.length_append] at h'
  have e1 : (":get:" : String).length = 5 := by decide
  have e2 : (":list:" : String).length = 6 := by decide
  omega

/-- The global get wildcard differs from the id-scoped get pattern, whatever
the id. -/
theorem getWild_ne_getId (m id : String) :
    getCacheNs m ++ "*" ≠ getCacheNs m ++ id ++ ":*" := by
  intro h
  have h' := congrArg String.length h
  simp only [getCacheNs] at h'
  rw [String.length_append, String.length_append, String.length_append,
    String.length_append, String.length_append] at h'
  have e1 : ("*" : String).length = 1 := by decide
  have e2 : (":*" : String).length = 2 := by decide
  omega

/-- C2: whichever of the four mutating hooks fires (`save`, `remove`,
`findOneAndRemove`, `findOneAndUpdate`) on a document with id `id`, the
configured cache-clear capability is invoked exactly on the count wildcard,
the list wildcard and the get wildcard scoped to `id` — and the global get
wildcard (which would clear every document's get caches) is never among the
invocations. -/
theorem c2_invalidation_patterns (op : MutatingOp) (m id : String) :
    postHookCalls op true m id =
      [countCacheNs m ++ "*", listCacheNs m ++ "*", getCacheNs m ++ id ++ ":*"] ∧
    getCacheNs m ++ "*" ∉ postHookCalls op true m id := by
  have hcalls : postHookCalls op true m id =
      [countCacheNs m ++ "*", listCacheNs m ++ "*", getCacheNs m ++ id ++ ":*"] := by
    cases op <;> simp [postHookCalls, clearCacheCalls]
  refine ⟨hcalls, ?_⟩
  rw [hcalls]
  intro hmem
  rcases List.mem_cons.mp hmem with h | hmem
  · exact getWild_ne_countWild m h
  rcases List.mem_cons.mp hmem with h | hmem
  · exact getWild_ne_listWild m h
  rcases List.mem_cons.mp hmem with h | hmem
  · exact getWild_ne_getId m id h
  · simp at hmem

/-- C8, counterexample. The claim says a failure of the cache-clear capability
is swallowed; but `schema.methods.clearCache` wraps its three capability calls
in no try/catch, so a capability that throws makes `clearCache` itself throw:
with a capability failing on every pattern, the run ends in an error instead
of completing. -/
theorem c8_capability_failure_propagates :
    clearCacheRun (some (fun _ => Except.error ())) "Item" "42" = Except.error () := by
  rfl

/-- C8, amended: when the cache-clear capability is absent, invalidation is a
silent no-op (no error is raised); but when the capability is present and
throws, the failure propagates out of `clearCache` unswallowed (here: the
error of a capability failing on every pattern becomes the result of the
run). -/
theorem c8_invalidation_error_handling {ε : Type} (m id : String) :
    clearCacheRun (none : Option (String → Except ε Unit)) m id = Except.ok () ∧
    ∀ e : ε, clearCacheRun (some (fun _ => Except.error e)) m id = Except.error e := by
  constructor
  · rfl
  · intro e; rfl

/-- A successful association-list lookup means the key is present. -/
theorem mem_sortKeys_of_lookup_eq_some :
    ∀ (l : List (String × SortVal)) (k : String) (v : SortVal),
      l.lookup k = some v → k ∈ sortKeys l := by
  intro l
  induction l with
  | nil => intro k v h; simp [List.lookup] at h
  | cons hd tl ih =>
    intro k v h
    obtain ⟨k', v'⟩ := hd
    cases hbeq : k == k' with
    | true =>
      have : k = k' := by simpa using hbeq
      simp [sortKeys, this]
    | false =>
      simp only [List.lookup, hbeq] at h
      exact List.mem_cons_of_mem _ (ih k v h)

/-- The keys of the mapped base inside `jsAssign` are the base's keys. -/
theorem sortKeys_jsAssign_base (base overlay : List (String × SortVal)) :
    sortKeys (jsAssign base overlay) =
      sortKeys base ++ sortKeys (overlay.filter (fun kv => (base.lookup kv.1).isNone)) := by
  simp only [jsAssign, sortKeys, List.map_append, List.map_map]
  rfl

/-- C5, counterexample. The claim says that when the caller supplied a sort,
that sort is used without the relevance-score key; but line 89 of part_000
merges `{score: {$meta: 'textScore'}}` into the caller's sort unconditionally
whenever the query is a text search: with caller sort `{name: 1}` the
resulting sort is `{name: 1, score: {$meta: 'textScore'}}`, which does contain
the score key. -/
theorem c5_caller_sort_gets_score_key :
    computedSort true (some [("name", SortVal.asc)]) =
      some [("name", SortVal.asc), ("score", SortVal.textScore)] := by
  decide

/-- C5, amended: for a text-search query the resulting sort always includes
the relevance-score key — also when the caller supplied a sort — and every
key of the caller-supplied sort is preserved in the result (the score key is
merged in, it does not replace the caller's sort). -/
theorem c5_text_sort_amended (cs : List (String × SortVal)) (k : String)
    (hk : k ∈ sortKeys cs) :
    "score" ∈ sortKeys ((computedSort true (some cs)).getD []) ∧
    k ∈ sortKeys ((computedSort true (some cs)).getD []) := by
  have hred : (computedSort true (some cs)).getD [] =
      jsAssign cs [("score", SortVal.textScore)] := rfl
  rw [hred, sortKeys_jsAssign_base]
  constructor
  · cases hlk : cs.lookup "score" with
    | some v =>
      exact List.mem_append_left _ (mem_sortKeys_of_lookup_eq_some cs "score" v hlk)
    | none =>
      refine List.mem_append_right _ ?_
      simp [sortKeys, List.filter, hlk]
  · exact List.mem_append_left _ hk

/-- C5, witness for the amended theorem at a concrete input. -/
theorem c5_text_sort_witness :
    "score" ∈ sortKeys ((computedSort true (some [("name", SortVal.asc)])).getD []) ∧
    "name" ∈ sortKeys ((computedSort true (some [("name", SortVal.asc)])).getD []) :=
  c5_text_sort_amended [("name", SortVal.asc)] "name" (by decide)

/-- C6: a requested field path the schema does not know
(`pathType === 'adhocOrUndefined'`) never enters the selection `list` (or
`get`) builds — it is silently dropped by the `break` in the prefix walk, no
error is raised (the selection function is total) and the query is still
issued with the remaining fields. -/
theorem c6_unknown_fields_dropped (sch : SchemaModel) (cf sf E : List String)
    (f : String) (hf : sch.pathExists f = false) :
    f ∉ listSelection sch cf sf E := by
  intro hmem
  simp only [listSelection, validExtras] at hmem
  rcases List.mem_flatMap.mp hmem with ⟨e, _, hin⟩
  have := pathExists_of_mem_collectPaths sch _ f hin
  rw [hf] at this
  exact Bool.false_ne_true this

/-- C6, witness at a concrete input: `"zz"` is not a path of `schemaWithX`,
so requesting it leaves it out of the selection. -/
theorem c6_unknown_fields_witness :
    "zz" ∉ listSelection schemaWithX [] [] ["zz"] :=
  c6_unknown_fields_dropped schemaWithX [] [] ["zz"] "zz" (by decide)

/-- C7: requesting the extra `"author.name"` when `"author"` is a reference
field known to the schema selects the top-level field `"author"` and issues
exactly one populate call, for `"author"` with child selection `"name"` (the
string form of `{"name": 1}`); the prefix walk stops at the reference
boundary, so `"author.name"` itself is not selected. -/
theorem c7_reference_populate (sch : SchemaModel)
    (h1 : sch.pathExists "author" = true) (h2 : sch.isRef "author" = true) :
    listSelection sch [] [] ["author.name"] = ["author"] ∧
    listPopulates sch [] [] ["author.name"] = [("author", "name")] := by
  have hfe : filterExtras [] [] ["author.name"] = ["author.name"] := by decide
  have hw : walkPrefixes "author.name" = ["author", "author.name"] := by decide
  have hcs : childSelect ["author.name"] "author" = "name" := by decide
  have hfilter : (["author.name"] : List String).filter (fun e => e != "") =
      ["author.name"] := by decide
  constructor
  · simp only [listSelection, hfe, validExtras, hfilter, List.flatMap_cons,
      List.flatMap_nil, List.append_nil, hw]
    simp [collectPaths, h1, h2]
  · simp only [listPopulates, hfe, populateCalls, hfilter, List.flatMap_cons,
      List.flatMap_nil, List.append_nil, hw]
    simp [collectPopulates, h1, h2, hcs]

/-- C7, witness: the same at the concrete schema `authorSchema`. -/
theorem c7_reference_populate_witness :
    listSelection authorSchema [] [] ["author.name"] = ["author"] ∧
    listPopulates authorSchema [] [] ["author.name"] = [("author", "name")] :=
  c7_reference_populate authorSchema (by decide) (by decide)

/-- A rule list whose first failure is `none` has no failing rule. -/
theorem firstErr_eq_none_forall :
    ∀ (l : List (Option String)), firstErr l = none → ∀ x ∈ l, x = none := by
  intro l
  induction l with
  | nil => intro _ x hx; simp at hx
  | cons hd tl ih =>
    intro hn x hx
    cases hd with
    | none =>
      rcases List.mem_cons.mp hx with h | h
      · rw [h]
      · exact ih (by simpa [firstErr] using hn) x h
    | some m => simp [firstErr] at hn

/-- C9: plugin registration fails synchronously — `pluginRegister` returns the
`TypeError` message instead of installing the helpers — whenever `modelName`
is missing or `commonFields` is present but not an array. -/
theorem c9_registration_validates (o : RawPluginOpts)
    (h : o.modelName = none ∨ ∃ t, o.commonFields = some t ∧ t ≠ JsType.array) :
    ∃ msg, pluginRegister o = Except.error msg := by
  cases hv : validatePluginOpts (applyDefaults o) with
  | some m => exact ⟨m, by simp [pluginRegister, hv]⟩
  | none =>
    exfalso
    simp only [validatePluginOpts] at hv
    have hall := firstErr_eq_none_forall _ hv
    rcases h with hm | ⟨t, ht, htne⟩
    · have hreq : checkRequired (applyDefaults o).modelName
          "Expect modelName to be existed" = none := hall _ (by simp)
      have hmn : (applyDefaults o).modelName = o.modelName := rfl
      rw [hmn, hm] at hreq
      simp [checkRequired] at hreq
    · have hcf : checkIs (applyDefaults o).commonFields JsType.array
          "Expect commonFields to be an array" = none := hall _ (by simp)
      have hcm : (applyDefaults o).commonFields = (o.commonFields <|> some JsType.array) :=
        rfl
      rw [hcm, ht] at hcf
      have hsome : ((some t <|> some JsType.array) : Option JsType) = some t := rfl
      rw [hsome] at hcf
      simp [checkIs, htne] at hcf

/-- Registration options with every field `undefined`. -/
def emptyOpts : RawPluginOpts :=
  { modelName := none, commonFields := none, secretFields := none,
    readOnlyFields := none, cache := none, limit := none, leanOpt := none }

/-- C9, witness: registering with no options at all (so no `modelName`)
fails. -/
theorem c9_registration_witness :
    ∃ msg, pluginRegister emptyOpts = Except.error msg :=
  c9_registration_validates emptyOpts (Or.inl rfl)

/-- C10: evaluation at the failing input. When the backend lookup succeeds but
finds no document, part_000's static `patch` dereferences the null `doc`
(`doc.patch(patch, done)`) and crashes with a `TypeError` instead of invoking
the callback, while the guarded variant of src/src/index.js invokes
`done(null, null)` exactly as the claim states. -/
theorem c10_patch_missing_doc :
    patchStatic (Except.ok (none : Option Unit) : Except Unit (Option Unit))
        (fun d => Except.ok d) = PatchOutcome.nullDeref ∧
    patchStaticGuarded (Except.ok (none : Option Unit) : Except Unit (Option Unit))
        (fun d => Except.ok d) = PatchOutcome.callback none none := by
  exact ⟨rfl, rfl⟩

